import Mathlib

/-!
Shallow embedding of the PowerManagement battery engine
(`pmconfigd/BatteryTimeRemaining.c` and
`AppleSmartBatteryManager/AppleSmartBatteryManagerUserClient.cpp`).

Machine doubles are modelled by `ℚ` (every constant appearing in the code,
0.5, 2.0, 0.80, 0.83, 200.0, and every integer telemetry value cast to
double, is exactly representable, so the arithmetic the claims mention is
exact); C `int` fields are modelled by `ℤ`.
-/

/-- Battery health calculation reserve constant, `kSmartBattReserve_mAh`. -/
def kSmartBattReserve_mAh : ℚ := 200

/-- Ceiling on any computed time remaining, `kMaxBattMinutes`. -/
def kMaxBattMinutes : ℚ := 600

/-- The permanent failure marker string, `kBatteryPermFailureString`. -/
def kBatteryPermFailureString : String := "Permanent Battery Failure"

/-- Value of `kIOPSPoorValue`. -/
def kIOPSPoorValue : String := "Poor"

/-- Value of `kIOPSFairValue`. -/
def kIOPSFairValue : String := "Fair"

/-- Value of `kIOPSGoodValue`. -/
def kIOPSGoodValue : String := "Good"

/-- Value of `kIOPSInternalType`. -/
def kIOPSInternalType : String := "Internal"

/-- Value of `kIOPSACPowerValue`. -/
def kIOPSACPowerValue : String := "AC Power"

/-- Value of `kIOPSBatteryPowerValue`. -/
def kIOPSBatteryPowerValue : String := "Battery Power"

/-- One battery reading, the fields of the `IOPMBattery` record that the
engine consults.  The `has…` booleans model the `_batteryHas(b, key)`
checks on the property dictionary; nullable `CFStringRef` fields are
`Option String`. -/
structure IOPMBattery where
  name : Option String
  isPresent : Bool
  isCharging : Bool
  externalConnected : Bool
  currentCap : ℤ
  maxCap : ℤ
  designCap : ℤ
  cycleCount : ℤ
  avgAmperage : ℤ
  instantAmperage : ℤ
  hasInstantAmperage : Bool
  hasMaxCap : Bool
  hasDesignCap : Bool
  hasErrorCondition : Bool
  failureDetected : Option String
  chargeStatus : Option String
  hwAverageTR : ℤ
  invalidWakeSecs : ℤ
  markedNeedsReplacement : Bool
  swCalculatedTR : ℚ
deriving DecidableEq

/-- Lower plausibility bound on the average current,
`lowerAmperageBound` in `_populateTimeRemaining`: half the absolute
instantaneous current when the battery reports one, else the fixed 5. -/
def lowerAmperageBound (b : IOPMBattery) : ℚ :=
  if b.hasInstantAmperage = true then |(b.instantAmperage : ℚ)| * (1 / 2) else 5

/-- Upper plausibility bound on the average current,
`upperAmperageBound` in `_populateTimeRemaining`: twice the absolute
instantaneous current when the battery reports one, else the fixed 15000. -/
def upperAmperageBound (b : IOPMBattery) : ℚ :=
  if b.hasInstantAmperage = true then |(b.instantAmperage : ℚ)| * 2 else 15000

/-- Per-battery body of `_populateTimeRemaining`: the value stored into
`b->swCalculatedTR` for one battery, given the two globals
`_ignoringTimeRemainingEstimates` and `_useBatteryTimeEstimate`. -/
def populateTimeRemaining (ignoring useHW : Bool) (b : IOPMBattery) : ℚ :=
  if b.avgAmperage = 0 ∨ |(b.avgAmperage : ℚ)| < lowerAmperageBound b ∨
      upperAmperageBound b < |(b.avgAmperage : ℚ)| ∨ ignoring = true then
    -1
  else
    let raw : ℚ :=
      if useHW = true then (b.hwAverageTR : ℚ)
      else if b.isCharging = true then
        60 * (((b.maxCap : ℚ) - (b.currentCap : ℚ)) / (b.avgAmperage : ℚ))
      else
        -60 * ((b.currentCap : ℚ) / (b.avgAmperage : ℚ))
    let nonneg : ℚ := if raw < 0 then -1 else raw
    if kMaxBattMinutes < nonneg then kMaxBattMinutes else nonneg

/-- C1: the estimator writes the -1 sentinel whenever the average current
is zero, or its absolute value falls outside the plausibility bounds, or
the global suppression flag is set; in particular a zero average current
forces -1 regardless of every other field. -/
theorem populateTimeRemaining_rejects (ignoring useHW : Bool) (b : IOPMBattery)
    (h : b.avgAmperage = 0 ∨ |(b.avgAmperage : ℚ)| < lowerAmperageBound b ∨
      upperAmperageBound b < |(b.avgAmperage : ℚ)| ∨ ignoring = true) :
    populateTimeRemaining ignoring useHW b = -1 := by
  unfold populateTimeRemaining
  rw [if_pos h]

/-- A reading with zero average current but otherwise healthy fields. -/
def zeroAvgBattery : IOPMBattery :=
  { name := some "InternalBattery-0"
    isPresent := true
    isCharging := false
    externalConnected := false
    currentCap := 3000
    maxCap := 5000
    designCap := 5500
    cycleCount := 10
    avgAmperage := 0
    instantAmperage := 1200
    hasInstantAmperage := true
    hasMaxCap := true
    hasDesignCap := true
    hasErrorCondition := false
    failureDetected := none
    chargeStatus := none
    hwAverageTR := 90
    invalidWakeSecs := 30
    markedNeedsReplacement := false
    swCalculatedTR := 0 }

theorem populateTimeRemaining_rejects_witness :
    zeroAvgBattery.avgAmperage = 0 ∧
      populateTimeRemaining false false zeroAvgBattery = -1 :=
  ⟨rfl, populateTimeRemaining_rejects false false zeroAvgBattery (Or.inl rfl)⟩

/-- Arithmetic shape of the two clamping steps at the end of
`_populateTimeRemaining`. -/
lemma clamp_range (raw : ℚ) :
    (if (600 : ℚ) < (if raw < 0 then (-1 : ℚ) else raw) then (600 : ℚ)
      else if raw < 0 then -1 else raw) = -1 ∨
    (0 ≤ (if (600 : ℚ) < (if raw < 0 then (-1 : ℚ) else raw) then (600 : ℚ)
      else if raw < 0 then -1 else raw) ∧
      (if (600 : ℚ) < (if raw < 0 then (-1 : ℚ) else raw) then (600 : ℚ)
      else if raw < 0 then -1 else raw) ≤ 600) := by
  by_cases h : raw < 0
  · rw [if_pos h, if_neg (by norm_num : ¬(600 : ℚ) < -1)]
    exact Or.inl rfl
  · rw [if_neg h]
    by_cases h6 : (600 : ℚ) < raw
    · rw [if_pos h6]
      exact Or.inr ⟨by norm_num, le_refl _⟩
    · rw [if_neg h6]
      exact Or.inr ⟨le_of_not_lt h, le_of_not_lt h6⟩

/-- C2: on the manual path a battery that passes the rejection checks gets
minutes = 60*(maxCap - currentCap)/avgAmperage when charging and
-60*currentCap/avgAmperage when discharging, negative results become -1
and results above 600 become 600; on every path the final value is -1 or
lies in [0, 600]. -/
theorem populateTimeRemaining_formula_and_range (ignoring useHW : Bool)
    (b : IOPMBattery) :
    (¬(b.avgAmperage = 0 ∨ |(b.avgAmperage : ℚ)| < lowerAmperageBound b ∨
        upperAmperageBound b < |(b.avgAmperage : ℚ)| ∨ ignoring = true) →
      populateTimeRemaining ignoring false b =
        (let m : ℚ :=
          if b.isCharging = true then
            60 * (((b.maxCap : ℚ) - (b.currentCap : ℚ)) / (b.avgAmperage : ℚ))
          else
            -60 * ((b.currentCap : ℚ) / (b.avgAmperage : ℚ));
        if 600 < (if m < 0 then (-1 : ℚ) else m) then 600
        else if m < 0 then -1 else m)) ∧
    (populateTimeRemaining ignoring useHW b = -1 ∨
      (0 ≤ populateTimeRemaining ignoring useHW b ∧
        populateTimeRemaining ignoring useHW b ≤ 600)) := by
  constructor
  · intro h
    unfold populateTimeRemaining
    rw [if_neg h]
    simp only [kMaxBattMinutes]
    rcases Bool.eq_false_or_eq_true b.isCharging with hc | hc <;>
      simp [hc]
  · by_cases h : (b.avgAmperage = 0 ∨ |(b.avgAmperage : ℚ)| < lowerAmperageBound b ∨
        upperAmperageBound b < |(b.avgAmperage : ℚ)| ∨ ignoring = true)
    · unfold populateTimeRemaining
      rw [if_pos h]
      exact Or.inl rfl
    · unfold populateTimeRemaining
      rw [if_neg h]
      simp only [kMaxBattMinutes]
      exact clamp_range _

/-- A discharging reading that passes all rejection checks. -/
def manualPathBattery : IOPMBattery :=
  { zeroAvgBattery with
    avgAmperage := -1000
    instantAmperage := -1100
    currentCap := 2000 }

theorem populateTimeRemaining_formula_and_range_witness :
    ¬(manualPathBattery.avgAmperage = 0 ∨
        |(manualPathBattery.avgAmperage : ℚ)| < lowerAmperageBound manualPathBattery ∨
        upperAmperageBound manualPathBattery < |(manualPathBattery.avgAmperage : ℚ)| ∨
        false = true) ∧
      populateTimeRemaining false false manualPathBattery = 120 := by
  have hside :
      ¬(manualPathBattery.avgAmperage = 0 ∨
        |(manualPathBattery.avgAmperage : ℚ)| < lowerAmperageBound manualPathBattery ∨
        upperAmperageBound manualPathBattery < |(manualPathBattery.avgAmperage : ℚ)| ∨
        false = true) := by
    norm_num [manualPathBattery, zeroAvgBattery, lowerAmperageBound, upperAmperageBound]
  refine ⟨hside, ?_⟩
  have h := (populateTimeRemaining_formula_and_range false false manualPathBattery).1 hside
  rw [h]
  norm_num [manualPathBattery, zeroAvgBattery]

/-- C9: when the battery reports the instantaneous-current capability and
the instantaneous current is zero, the plausibility bounds collapse to
[0, 0] and the estimator yields -1 for every average current. -/
theorem populateTimeRemaining_zero_instant (ignoring useHW : Bool)
    (b : IOPMBattery) (hcap : b.hasInstantAmperage = true)
    (hzero : b.instantAmperage = 0) :
    populateTimeRemaining ignoring useHW b = -1 := by
  apply populateTimeRemaining_rejects
  by_cases havg : b.avgAmperage = 0
  · exact Or.inl havg
  · refine Or.inr (Or.inr (Or.inl ?_))
    have hub : upperAmperageBound b = 0 := by
      simp [upperAmperageBound, hcap, hzero]
    have h1 : (1 : ℚ) ≤ |(b.avgAmperage : ℚ)| := by
      rw [← Int.cast_abs]
      exact_mod_cast Int.one_le_abs (by exact_mod_cast havg)
    rw [hub]
    linarith

/-- A reading with the instantaneous-current capability reading zero amps
but a large nonzero average current. -/
def zeroInstantBattery : IOPMBattery :=
  { zeroAvgBattery with
    avgAmperage := 2500
    instantAmperage := 0 }

theorem populateTimeRemaining_zero_instant_witness :
    zeroInstantBattery.hasInstantAmperage = true ∧
      zeroInstantBattery.instantAmperage = 0 ∧
      populateTimeRemaining false false zeroInstantBattery = -1 :=
  ⟨rfl, rfl, populateTimeRemaining_zero_instant false false zeroInstantBattery rfl rfl⟩

/-- The keys `_setBatteryHealthConfidence` writes into the outgoing
dictionary (`none` = left unset) and the possibly updated
`markedNeedsReplacement` latch of the battery. -/
structure HealthConfidence where
  health : Option String
  confidence : Option String
  markedNeedsReplacement : Bool
deriving DecidableEq

/-- Embedding of `_setBatteryHealthConfidence`: the early returns of the C
function become nested if-then-else branches.  The division lives in `ℚ`,
so the theorems below restrict to `0 < designCap`, where the `ℚ` value
agrees with the C double. -/
def setBatteryHealthConfidence (b : IOPMBattery) : HealthConfidence :=
  if b.isPresent = true then
    if b.hasErrorCondition = true ∧ b.failureDetected = some kBatteryPermFailureString then
      ⟨some kIOPSPoorValue, some kIOPSGoodValue, b.markedNeedsReplacement⟩
    else if b.hasMaxCap = true ∧ b.hasDesignCap = true then
      if b.markedNeedsReplacement = true then
        if ((b.maxCap : ℚ) + kSmartBattReserve_mAh) / (b.designCap : ℚ) ≤ 83 / 100 ∧
            b.cycleCount < 300 then
          ⟨some kIOPSFairValue, some kIOPSGoodValue, b.markedNeedsReplacement⟩
        else
          ⟨some kIOPSGoodValue, some kIOPSGoodValue, false⟩
      else
        if ((b.maxCap : ℚ) + kSmartBattReserve_mAh) / (b.designCap : ℚ) ≤ 80 / 100 ∧
            b.cycleCount < 300 then
          ⟨some kIOPSFairValue, some kIOPSGoodValue, true⟩
        else
          ⟨some kIOPSGoodValue, some kIOPSGoodValue, b.markedNeedsReplacement⟩
    else ⟨none, none, b.markedNeedsReplacement⟩
  else ⟨none, none, b.markedNeedsReplacement⟩

/-- C3: with both capacity keys known, a positive design capacity and no
permanent failure, the classifier is the two-state hysteresis machine on
(maxCap + 200) / designCap: unlatched it latches and reports Fair exactly
when the quotient is at most 0.80 and cycleCount is below 300, otherwise
Good; latched it keeps Fair while the quotient is at most 0.83 with
cycleCount below 300, and unlatches to Good exactly when the quotient
exceeds 0.83 or cycleCount reaches 300. -/
theorem setBatteryHealthConfidence_hysteresis (b : IOPMBattery)
    (hp : b.isPresent = true)
    (hmc : b.hasMaxCap = true) (hdc : b.hasDesignCap = true)
    (hpos : 0 < b.designCap)
    (hnf : ¬(b.hasErrorCondition = true ∧
      b.failureDetected = some kBatteryPermFailureString)) :
    (b.markedNeedsReplacement = false →
      ((((b.maxCap : ℚ) + 200) / (b.designCap : ℚ) ≤ 80 / 100 ∧ b.cycleCount < 300) →
        setBatteryHealthConfidence b =
          ⟨some kIOPSFairValue, some kIOPSGoodValue, true⟩) ∧
      (¬(((b.maxCap : ℚ) + 200) / (b.designCap : ℚ) ≤ 80 / 100 ∧ b.cycleCount < 300) →
        setBatteryHealthConfidence b =
          ⟨some kIOPSGoodValue, some kIOPSGoodValue, false⟩)) ∧
    (b.markedNeedsReplacement = true →
      ((((b.maxCap : ℚ) + 200) / (b.designCap : ℚ) ≤ 83 / 100 ∧ b.cycleCount < 300) →
        setBatteryHealthConfidence b =
          ⟨some kIOPSFairValue, some kIOPSGoodValue, true⟩) ∧
      ((83 / 100 < ((b.maxCap : ℚ) + 200) / (b.designCap : ℚ) ∨ 300 ≤ b.cycleCount) →
        setBatteryHealthConfidence b =
          ⟨some kIOPSGoodValue, some kIOPSGoodValue, false⟩)) := by
  unfold setBatteryHealthConfidence
  rw [if_pos hp, if_neg hnf, if_pos ⟨hmc, hdc⟩]
  simp only [kSmartBattReserve_mAh]
  constructor
  · intro hm
    rw [hm]
    simp only [Bool.false_eq_true, if_false]
    constructor
    · intro hcond
      rw [if_pos hcond]
    · intro hcond
      rw [if_neg hcond]
  · intro hm
    rw [hm]
    simp only [if_true]
    constructor
    · intro hcond
      rw [if_pos hcond]
    · intro hcond
      have hneg : ¬(((b.maxCap : ℚ) + 200) / (b.designCap : ℚ) ≤ 83 / 100 ∧
          b.cycleCount < 300) := by
        rcases hcond with hgt | hge
        · exact fun hc => absurd hc.1 (not_le.mpr hgt)
        · exact fun hc => absurd hc.2 (not_lt.mpr hge)
      rw [if_neg hneg]

/-- A worn unlatched battery at the 0.80 trip threshold. -/
def wornBattery : IOPMBattery :=
  { zeroAvgBattery with
    maxCap := 600
    designCap := 1000
    cycleCount := 10
    markedNeedsReplacement := false }

theorem setBatteryHealthConfidence_hysteresis_witness :
    wornBattery.isPresent = true ∧
      wornBattery.markedNeedsReplacement = false ∧
      ((wornBattery.maxCap : ℚ) + 200) / (wornBattery.designCap : ℚ) ≤ 80 / 100 ∧
      wornBattery.cycleCount < 300 ∧
      setBatteryHealthConfidence wornBattery =
        ⟨some kIOPSFairValue, some kIOPSGoodValue, true⟩ := by
  have hr : ((wornBattery.maxCap : ℚ) + 200) / (wornBattery.designCap : ℚ) ≤ 80 / 100 := by
    norm_num [wornBattery, zeroAvgBattery]
  have hcy : wornBattery.cycleCount < 300 := by norm_num [wornBattery, zeroAvgBattery]
  refine ⟨rfl, rfl, hr, hcy, ?_⟩
  exact ((setBatteryHealthConfidence_hysteresis wornBattery rfl rfl rfl
    (by norm_num [wornBattery, zeroAvgBattery])
    (by simp [wornBattery, zeroAvgBattery])).1 rfl).1 ⟨hr, hcy⟩

/-- C7: a reported permanent-failure condition short-circuits the
classifier: health Poor, confidence Good, and the latch is returned
unchanged, independent of every capacity field. -/
theorem setBatteryHealthConfidence_permanent_failure (b : IOPMBattery)
    (hp : b.isPresent = true)
    (he : b.hasErrorCondition = true)
    (hf : b.failureDetected = some kBatteryPermFailureString) :
    setBatteryHealthConfidence b =
      ⟨some kIOPSPoorValue, some kIOPSGoodValue, b.markedNeedsReplacement⟩ := by
  unfold setBatteryHealthConfidence
  rw [if_pos hp, if_pos ⟨he, hf⟩]

/-- A latched battery reporting a permanent failure. -/
def failedBattery : IOPMBattery :=
  { zeroAvgBattery with
    hasErrorCondition := true
    failureDetected := some kBatteryPermFailureString
    markedNeedsReplacement := true }

theorem setBatteryHealthConfidence_permanent_failure_witness :
    failedBattery.isPresent = true ∧
      failedBattery.hasErrorCondition = true ∧
      failedBattery.failureDetected = some kBatteryPermFailureString ∧
      setBatteryHealthConfidence failedBattery =
        ⟨some kIOPSPoorValue, some kIOPSGoodValue, true⟩ :=
  ⟨rfl, rfl, rfl,
    setBatteryHealthConfidence_permanent_failure failedBattery rfl rfl rfl⟩

/-- C `lround`: round to nearest integer, ties away from zero. -/
def lround (q : ℚ) : ℤ :=
  if 0 ≤ q then ⌊q + 1 / 2⌋ else -⌊-q + 1 / 2⌋

/-- The capacity-percentage block of `_packageBatteryInfo`:
(`set_capacity`, `set_charge`) for one battery. -/
def packagePercentages (b : IOPMBattery) : ℤ × ℤ :=
  if b.maxCap ≠ 0 then
    let set_charge := lround ((b.currentCap : ℚ) * 100 / (b.maxCap : ℚ))
    (100, if set_charge = 100 ∧ b.isCharging = true then 99 else set_charge)
  else (0, 0)

/-- The per-battery record `_packageBatteryInfo` builds and the publisher
diffs; structural equality models `CFEqual` on the dictionary. -/
structure Snapshot where
  providesTimeRemaining : Bool
  waitingForEstimates : Bool
  failure : Option String
  chargeStatus : Option String
  transportType : String
  powerSourceState : String
  maxCapacityPct : ℤ
  currentCapacityPct : ℤ
  isPresent : Bool
  isCharging : Bool
  timeToFullCharge : ℚ
  timeToEmpty : ℚ
  health : Option String
  confidence : Option String
  name : String
deriving DecidableEq

/-- Per-battery body of `_packageBatteryInfo`, given the two globals
`_useBatteryTimeEstimate` and `_ignoringTimeRemainingEstimates`. -/
def packageBatteryInfo (useHW ignoring : Bool) (b : IOPMBattery) : Snapshot :=
  let pct := packagePercentages b
  let hc := setBatteryHealthConfidence b
  let minutes := b.swCalculatedTR
  { providesTimeRemaining := useHW
    waitingForEstimates := ignoring
    failure := b.failureDetected
    chargeStatus := b.chargeStatus
    transportType := kIOPSInternalType
    powerSourceState :=
      if b.externalConnected = true then kIOPSACPowerValue else kIOPSBatteryPowerValue
    maxCapacityPct := pct.1
    currentCapacityPct := pct.2
    isPresent := b.isPresent
    isCharging :=
      if b.isPresent = false then false
      else if minutes = -1 then b.isCharging
      else if b.isCharging = true then true else false
    timeToFullCharge :=
      if b.isPresent = false then 0
      else if minutes = -1 then -1
      else if b.isCharging = true then minutes
      else 0
    timeToEmpty :=
      if b.isPresent = false then 0
      else if minutes = -1 then -1
      else if b.isCharging = true then 0
      else if b.externalConnected = true then 0
      else minutes
    health := hc.health
    confidence := hc.confidence
    name := b.name.getD "Unnamed" }

/-- C6: a zero max capacity publishes 0 for both percentages; otherwise
the max percentage is 100 and the current percentage is the rounded
currentCap*100/maxCap, displayed as 99 when it rounds to exactly 100 while
charging; at 99/100 charging no clamp fires, at 100/100 charging the
rounded 100 is clamped to 99. -/
theorem packageBatteryInfo_percentages (useHW ignoring : Bool) (b : IOPMBattery) :
    (b.maxCap = 0 →
      (packageBatteryInfo useHW ignoring b).maxCapacityPct = 0 ∧
      (packageBatteryInfo useHW ignoring b).currentCapacityPct = 0) ∧
    (b.maxCap ≠ 0 →
      (packageBatteryInfo useHW ignoring b).maxCapacityPct = 100 ∧
      (packageBatteryInfo useHW ignoring b).currentCapacityPct =
        (if lround ((b.currentCap : ℚ) * 100 / (b.maxCap : ℚ)) = 100 ∧ b.isCharging = true
          then 99 else lround ((b.currentCap : ℚ) * 100 / (b.maxCap : ℚ)))) := by
  constructor
  · intro h
    simp [packageBatteryInfo, packagePercentages, h]
  · intro h
    simp [packageBatteryInfo, packagePercentages, h]

/-- A charging battery at 99/100 capacity. -/
def charging99Battery : IOPMBattery :=
  { zeroAvgBattery with
    currentCap := 99
    maxCap := 100
    isCharging := true }

/-- A charging battery at 100/100 capacity. -/
def charging100Battery : IOPMBattery :=
  { zeroAvgBattery with
    currentCap := 100
    maxCap := 100
    isCharging := true }

theorem packageBatteryInfo_percentages_witness :
    charging99Battery.maxCap ≠ 0 ∧ charging100Battery.maxCap ≠ 0 ∧
      lround ((charging99Battery.currentCap : ℚ) * 100 / (charging99Battery.maxCap : ℚ)) = 99 ∧
      lround ((charging100Battery.currentCap : ℚ) * 100 / (charging100Battery.maxCap : ℚ)) = 100 ∧
      (packageBatteryInfo false false charging99Battery).currentCapacityPct = 99 ∧
      (packageBatteryInfo false false charging100Battery).currentCapacityPct = 99 := by
  have h99 : lround ((charging99Battery.currentCap : ℚ) * 100 /
      (charging99Battery.maxCap : ℚ)) = 99 := by
    rw [show ((charging99Battery.currentCap : ℚ) * 100 / (charging99Battery.maxCap : ℚ))
        = 99 by norm_num [charging99Battery, zeroAvgBattery]]
    rw [lround, if_pos (by norm_num)]
    rw [Int.floor_eq_iff]
    norm_num
  have h100 : lround ((charging100Battery.currentCap : ℚ) * 100 /
      (charging100Battery.maxCap : ℚ)) = 100 := by
    rw [show ((charging100Battery.currentCap : ℚ) * 100 / (charging100Battery.maxCap : ℚ))
        = 100 by norm_num [charging100Battery, zeroAvgBattery]]
    rw [lround, if_pos (by norm_num)]
    rw [Int.floor_eq_iff]
    norm_num
  have hm99 : charging99Battery.maxCap ≠ 0 := by norm_num [charging99Battery, zeroAvgBattery]
  have hm100 : charging100Battery.maxCap ≠ 0 := by norm_num [charging100Battery, zeroAvgBattery]
  refine ⟨hm99, hm100, h99, h100, ?_, ?_⟩
  · have h := ((packageBatteryInfo_percentages false false charging99Battery).2 hm99).2
    rw [h, if_neg]
    · exact h99
    · intro hc
      rw [h99] at hc
      exact absurd hc.1 (by decide)
  · have h := ((packageBatteryInfo_percentages false false charging100Battery).2 hm100).2
    rw [h, if_pos ⟨h100, rfl⟩]

/-- One iteration of the publish loop in
`BatteryTimeRemainingBatteriesHaveChanged` for one battery index: given
the retained previously published record (`none` when nothing has been
published yet) and the newly built record, it returns whether
`SCDynamicStoreSetValue` is called and the new retained record. -/
def publishOne (old : Option Snapshot) (new : Snapshot) : Bool × Option Snapshot :=
  match old with
  | none => (true, some new)
  | some o => (if o = new then false else true, some new)

/-- C5: with a retained record the publisher issues a store-set exactly
when the new record structurally differs, the retained record is replaced
by the new one in every case, and a second run with the same record is a
no-op, so two successive runs from a fresh or changed state issue exactly
one publish per battery. -/
theorem publishOne_diff_idempotent (o r : Snapshot) :
    ((publishOne (some o) r).1 = true ↔ o ≠ r) ∧
    (publishOne (some o) r).2 = some r ∧
    (publishOne none r).2 = some r ∧
    (publishOne none r).1 = true ∧
    (publishOne (publishOne (some o) r).2 r).1 = false ∧
    (publishOne (publishOne none r).2 r).1 = false := by
  refine ⟨?_, rfl, rfl, rfl, ?_, ?_⟩
  · by_cases h : o = r
    · simp [publishOne, h]
    · simp [publishOne, h]
  · show (publishOne (some r) r).1 = false
    simp [publishOne]
  · show (publishOne (some r) r).1 = false
    simp [publishOne]

/-- Global estimator suppression state: the statics
`_ignoringTimeRemainingEstimates`, `_estimatesInvalidUntil`, the current
`CFAbsoluteTime`, and whether `_timeSettledTimer` is pending. -/
structure TRState where
  ignoringTimeRemainingEstimates : Bool
  estimatesInvalidUntil : ℚ
  now : ℚ
  timerArmed : Bool
deriving DecidableEq

/-- Transitions of the discontinuity tracker.  `discontinuity` is
`_discontinuityOccurred` run at time `t` with the primary battery
reporting `invalidWakeSecs = w`; `expire` is `_timeRemainingMaybeValid`
run when the armed timer fires at its deadline. -/
inductive TRStep : TRState → TRState → Prop where
  | discontinuity (s : TRState) (t w : ℚ) (ht : s.now ≤ t) (hw : 0 ≤ w) :
      TRStep s ⟨true, t + w, t, true⟩
  | expire (s : TRState) (h : s.timerArmed = true) :
      TRStep s ⟨false, s.estimatesInvalidUntil, s.estimatesInvalidUntil, false⟩

/-- States reachable from the boot state (flag clear, deadline 0, no
timer, clock at any nonnegative absolute time). -/
inductive TRReachable : TRState → Prop where
  | init (n : ℚ) (h : 0 ≤ n) : TRReachable ⟨false, 0, n, false⟩
  | step (s s' : TRState) (hs : TRReachable s) (hstep : TRStep s s') : TRReachable s'

/-- Transitions as in `TRStep` but with the primary battery reporting a
strictly positive `invalidWakeSecs`. -/
inductive TRStepPos : TRState → TRState → Prop where
  | discontinuity (s : TRState) (t w : ℚ) (ht : s.now ≤ t) (hw : 0 < w) :
      TRStepPos s ⟨true, t + w, t, true⟩
  | expire (s : TRState) (h : s.timerArmed = true) :
      TRStepPos s ⟨false, s.estimatesInvalidUntil, s.estimatesInvalidUntil, false⟩

/-- Reachability under `TRStepPos`. -/
inductive TRReachablePos : TRState → Prop where
  | init (n : ℚ) (h : 0 ≤ n) : TRReachablePos ⟨false, 0, n, false⟩
  | step (s s' : TRState) (hs : TRReachablePos s) (hstep : TRStepPos s s') :
      TRReachablePos s'

/-- C4 counterexample: with `invalidWakeSecs = 0` the discontinuity step
reaches a state whose flag is set although the current time is not below
`estimatesInvalidUntil`, refuting the claimed invariant as stated. -/
theorem ignoring_invariant_counterexample :
    TRReachable ⟨true, 0, 0, true⟩ ∧
    ¬(((⟨true, 0, 0, true⟩ : TRState).ignoringTimeRemainingEstimates = true) ↔
      (⟨true, 0, 0, true⟩ : TRState).now <
        (⟨true, 0, 0, true⟩ : TRState).estimatesInvalidUntil) := by
  constructor
  · have h0 : TRReachable ⟨false, 0, 0, false⟩ := TRReachable.init 0 le_rfl
    have hstep : TRStep ⟨false, 0, 0, false⟩ ⟨true, (0 : ℚ) + 0, 0, true⟩ :=
      TRStep.discontinuity ⟨false, 0, 0, false⟩ 0 0 le_rfl le_rfl
    have : ((0 : ℚ) + 0) = 0 := by norm_num
    rw [this] at hstep
    exact TRReachable.step _ _ h0 hstep
  · intro hiff
    have := hiff.mp rfl
    simp at this

/-- C4 amended: whenever every discontinuity carries a strictly positive
`invalidWakeSecs`, every reachable state satisfies the invariant: the
suppression flag is set exactly when the current time is below
`estimatesInvalidUntil`. -/
theorem ignoring_iff_now_before_deadline (s : TRState) (h : TRReachablePos s) :
    s.ignoringTimeRemainingEstimates = true ↔ s.now < s.estimatesInvalidUntil := by
  induction h with
  | init n hn =>
    constructor
    · intro hfalse
      simp at hfalse
    · intro hlt
      change n < 0 at hlt
      linarith
  | step s s' hs hstep ih =>
    cases hstep with
    | discontinuity t w ht hw =>
      constructor
      · intro _
        show t < t + w
        linarith
      · intro _
        rfl
    | expire harm =>
      constructor
      · intro hfalse
        simp at hfalse
      · intro hlt
        exact absurd hlt (lt_irrefl _)

theorem ignoring_iff_now_before_deadline_witness :
    TRReachablePos ⟨true, 3, 1, true⟩ ∧
      (((⟨true, 3, 1, true⟩ : TRState).ignoringTimeRemainingEstimates = true) ↔
        (⟨true, 3, 1, true⟩ : TRState).now <
          (⟨true, 3, 1, true⟩ : TRState).estimatesInvalidUntil) := by
  have h0 : TRReachablePos ⟨false, 0, 1, false⟩ :=
    TRReachablePos.init 1 (by norm_num)
  have hstep : TRStepPos ⟨false, 0, 1, false⟩ ⟨true, (1 : ℚ) + 2, 1, true⟩ :=
    TRStepPos.discontinuity ⟨false, 0, 1, false⟩ 1 2 le_rfl (by norm_num)
  have he : ((1 : ℚ) + 2) = 3 := by norm_num
  rw [he] at hstep
  have hr : TRReachablePos ⟨true, 3, 1, true⟩ := TRReachablePos.step _ _ h0 hstep
  exact ⟨hr, ignoring_iff_now_before_deadline _ hr⟩

/-- IOKit status `kIOReturnSuccess`. -/
def kIOReturnSuccess : ℤ := 0

/-- IOKit status `kIOReturnNotPrivileged` (0xe00002c1). -/
def kIOReturnNotPrivileged : ℤ := 0xe00002c1

/-- IOKit status `kIOReturnBadArgument` (0xe00002c2). -/
def kIOReturnBadArgument : ℤ := 0xe00002c2

/-- Observable outcome of one privileged user-client call: the method
return, the `*return_code` out-parameter, the level handed to the owning
control surface (`none` when it was never invoked), and whether
`clientHasPrivilege` was ever consulted. -/
structure UCResult where
  ret : ℤ
  return_code : ℤ
  invoked : Option ℤ
  privilegeChecked : Bool
deriving DecidableEq

/-- Embedding of `AppleSmartBatteryManagerUserClient::secureInflowDisable`.
`disableInflow` abstracts the owning manager method of the same name
(its code is outside this repository slice); `admin` is the result of the
`clientHasPrivilege` administrator check and `hasOwner` the non-nullness
of `fOwner`. -/
def secureInflowDisable (disableInflow : ℤ → ℤ) (admin hasOwner : Bool)
    (level : ℤ) : UCResult :=
  if ¬(level = 0 ∨ level = 1) then
    { ret := kIOReturnSuccess, return_code := kIOReturnBadArgument
      invoked := none, privilegeChecked := false }
  else if admin = true ∧ hasOwner = true then
    { ret := kIOReturnSuccess, return_code := disableInflow level
      invoked := some level, privilegeChecked := true }
  else
    { ret := kIOReturnSuccess, return_code := kIOReturnNotPrivileged
      invoked := none, privilegeChecked := true }

/-- Embedding of `AppleSmartBatteryManagerUserClient::secureChargeInhibit`,
with `inhibitCharging` abstracting the owning manager method. -/
def secureChargeInhibit (inhibitCharging : ℤ → ℤ) (admin hasOwner : Bool)
    (level : ℤ) : UCResult :=
  if ¬(level = 0 ∨ level = 1) then
    { ret := kIOReturnSuccess, return_code := kIOReturnBadArgument
      invoked := none, privilegeChecked := false }
  else if admin = true ∧ hasOwner = true then
    { ret := kIOReturnSuccess, return_code := inhibitCharging level
      invoked := some level, privilegeChecked := true }
  else
    { ret := kIOReturnSuccess, return_code := kIOReturnNotPrivileged
      invoked := none, privilegeChecked := true }

/-- C8: for any level outside 0 and 1 both privileged pass-through
operations hand the caller the distinct bad-argument status and never
invoke the underlying control-surface operation, with no clamping. -/
theorem secure_ops_bad_argument (f g : ℤ → ℤ) (admin hasOwner : Bool)
    (level : ℤ) (h : ¬(level = 0 ∨ level = 1)) :
    (secureInflowDisable f admin hasOwner level).return_code = kIOReturnBadArgument ∧
    (secureInflowDisable f admin hasOwner level).invoked = none ∧
    (secureChargeInhibit g admin hasOwner level).return_code = kIOReturnBadArgument ∧
    (secureChargeInhibit g admin hasOwner level).invoked = none ∧
    kIOReturnBadArgument ≠ kIOReturnSuccess ∧
    kIOReturnBadArgument ≠ kIOReturnNotPrivileged := by
  unfold secureInflowDisable secureChargeInhibit
  rw [if_pos h, if_pos h]
  refine ⟨rfl, rfl, rfl, rfl, ?_, ?_⟩ <;> decide

theorem secure_ops_bad_argument_witness :
    ¬((2 : ℤ) = 0 ∨ (2 : ℤ) = 1) ∧
      (secureInflowDisable (fun _ => 0) true true 2).return_code = kIOReturnBadArgument ∧
      (secureInflowDisable (fun _ => 0) true true 2).invoked = none ∧
      (secureChargeInhibit (fun _ => 0) true true 2).return_code = kIOReturnBadArgument ∧
      (secureChargeInhibit (fun _ => 0) true true 2).invoked = none := by
  have h : ¬((2 : ℤ) = 0 ∨ (2 : ℤ) = 1) := by decide
  have hmain := secure_ops_bad_argument (fun _ => 0) (fun _ => 0) true true 2 h
  exact ⟨h, hmain.1, hmain.2.1, hmain.2.2.1, hmain.2.2.2.1⟩

/-- C10: argument validation strictly precedes the privilege check in both
operations: an out-of-range level yields the bad-argument status with the
privilege check never reached, for privileged and unprivileged callers
alike, while a valid level from an unprivileged caller yields the
not-privileged status without invoking the control surface. -/
theorem secure_ops_validation_precedes_privilege (f g : ℤ → ℤ)
    (admin hasOwner : Bool) (level : ℤ) :
    (¬(level = 0 ∨ level = 1) →
      (secureInflowDisable f admin hasOwner level).return_code = kIOReturnBadArgument ∧
      (secureInflowDisable f admin hasOwner level).privilegeChecked = false ∧
      (secureChargeInhibit g admin hasOwner level).return_code = kIOReturnBadArgument ∧
      (secureChargeInhibit g admin hasOwner level).privilegeChecked = false) ∧
    ((level = 0 ∨ level = 1) → admin = false →
      (secureInflowDisable f admin hasOwner level).return_code = kIOReturnNotPrivileged ∧
      (secureInflowDisable f admin hasOwner level).invoked = none ∧
      (secureChargeInhibit g admin hasOwner level).return_code = kIOReturnNotPrivileged ∧
      (secureChargeInhibit g admin hasOwner level).invoked = none) := by
  constructor
  · intro h
    unfold secureInflowDisable secureChargeInhibit
    rw [if_pos h, if_pos h]
    exact ⟨rfl, rfl, rfl, rfl⟩
  · intro hvalid hadmin
    have hnot : ¬¬(level = 0 ∨ level = 1) := not_not.mpr hvalid
    have hpriv : ¬(admin = true ∧ hasOwner = true) := by
      intro hc
      rw [hadmin] at hc
      exact absurd hc.1 (by decide)
    unfold secureInflowDisable secureChargeInhibit
    rw [if_neg hnot, if_neg hnot, if_neg hpriv, if_neg hpriv]
    exact ⟨rfl, rfl, rfl, rfl⟩

theorem secure_ops_validation_precedes_privilege_witness :
    ¬((3 : ℤ) = 0 ∨ (3 : ℤ) = 1) ∧
      (secureInflowDisable (fun _ => 0) true true 3).privilegeChecked = false ∧
      ((0 : ℤ) = 0 ∨ (0 : ℤ) = 1) ∧
      (secureChargeInhibit (fun _ => 0) false true 0).return_code =
        kIOReturnNotPrivileged := by
  have h3 : ¬((3 : ℤ) = 0 ∨ (3 : ℤ) = 1) := by decide
  have h0 : ((0 : ℤ) = 0 ∨ (0 : ℤ) = 1) := Or.inl rfl
  refine ⟨h3, ?_, h0, ?_⟩
  · exact ((secure_ops_validation_precedes_privilege (fun _ => 0) (fun _ => 0)
      true true 3).1 h3).2.1
  · exact ((secure_ops_validation_precedes_privilege (fun _ => 0) (fun _ => 0)
      false true 0).2 h0 rfl).2.2.1
